import Mathlib

/-!
Verification of the DLRAnalysis survey query/evidence pipeline
(`src/socios.py` and `src/bn_evidence.py`) against its specification.

The tabular data the scripts load from feather files is modelled as a
`Tables` structure of typed rows; pandas operations are translated into
explicit list operations:

* `DataFrame.unique` (first-occurrence order)        → `pdUnique`
* `Series.isin` / boolean-mask filtering             → `List.filter`
* `pd.merge(..., how='outer', on='AnswerID')`        → `outerMerge`
* `pd.cut(..., right=False, include_lowest=True)`    → `pdCutLeft`
* `pd.cut(...)` (default right-closed intervals)     → `pdCutRight`
* `Series.map('{:.0f}'.format, na_action=None)`      → `pyF0`
  (note: `na_action=None` is pandas' default "apply the function to NaN
  cells too", so `'{:.0f}'.format(nan)` yields the string `"nan"`)
* `Series.str.contains(pat)` (regex matching)        → `reContains`
  over the regex fragment actually generated by the scripts: the pattern
  is `'|'.join(lowered terms)`, so `'|'` separates alternatives, `'.'`
  matches any character, and all other characters are literals.

Numeric answer cells are rationals (`ℚ`), with `Option` as the NaN /
missing-cell marker; identifiers are integers.  Fallible Python paths
(invalid questionnaire id, `KeyError` on a column label, `ValueError` on
a positional column rename) are `Except PyError`.
-/

namespace DLR

/-- Row of the `groups` table: a recruitment batch with a survey year
(stored as a string in the feather file) and a location. -/
structure Group where
  groupID : Int
  year : String
  location : String
deriving DecidableEq

/-- Row of the `links` table, linking a group to an AnswerID and a
ProfileID. -/
structure Link where
  groupID : Int
  answerID : Int
  profileID : Int
deriving DecidableEq

/-- The `id_name` argument of `loadID`: which identifier column of the
`links` table to read. -/
inductive IdName
  | answerID
  | profileID
deriving DecidableEq

/-- Reading the selected identifier column of one link row
(`links[id_name]`). -/
def IdName.get : IdName → Link → Int
  | .answerID, l => l.answerID
  | .profileID, l => l.profileID

/-- Question data-type category (the three categories of
`questions.Datatype` after `loadQuestions` renames them). -/
inductive Dtype
  | blob
  | char
  | num
deriving DecidableEq

/-- Row of the `questions` table (the dropped `lock` column is not
modelled).  `columnNo` is the positional column offset of the question's
answers inside the answer table of its data type; pandas labels that
positional column with the decimal string of the same number, which is
why the evidence script can address it by label. -/
structure Question where
  questionID : Int
  question : String
  datatype : Dtype
  questionaireID : Int
  columnNo : Nat
deriving DecidableEq

/-- Row of the `qconstraints` table: lower/upper valid-value bounds. -/
structure QConstraint where
  lower : Int
  upper : Int
deriving DecidableEq

/-- Row of the unfiltered `answers` table: which questionnaire an
AnswerID answered. -/
structure AnsRow where
  answerID : Int
  questionaireID : Int
deriving DecidableEq

/-- Row of the `answers_num` table: the respondent identifier plus the
numeric answer cells, addressed by positional column number
(`cells c` is the cell at position `c`; `none` models NaN). -/
structure NumRow where
  answerID : Int
  cells : Nat → Option ℚ

/-- The table store: the named feather tables consumed by the scripts.
`qconstraints` is indexed access into the constraints table, as used by
`qu.join(qcons, 'QuestionID', ...)`. -/
structure Tables where
  groups : List Group
  links : List Link
  questions : List Question
  qconstraints : Int → Option QConstraint
  questionaires : List Int
  answers : List AnsRow
  answers_num : List NumRow

/-- Model of Python errors raised or reported by the pipeline. -/
inductive PyError
  /-- `searchQuestions` prints `'Please select a valid QuestionaireID'`
  together with the valid id list and returns `None`. -/
  | invalidQnair (valid : List Int)
  /-- `KeyError` from `featureframe['115']` / `featureframe['131']`. -/
  | keyError (k : Nat)
  /-- `ValueError` from assigning `['AnswerID'] + bn_n` to a frame whose
  column count is not 8. -/
  | valueError
deriving DecidableEq

/-- Model of `pandas.Series.unique`: deduplication keeping the first
occurrence of each element, in order.  `seen` accumulates the elements
already emitted. -/
def pdUniqueAux {α : Type} [DecidableEq α] (seen : List α) : List α → List α
  | [] => []
  | a :: l => if a ∈ seen then pdUniqueAux seen l else a :: pdUniqueAux (a :: seen) l

/-- Model of `pandas.Series.unique` (first-occurrence order). -/
def pdUnique {α : Type} [DecidableEq α] (l : List α) : List α :=
  pdUniqueAux [] l

/-- Year argument of `loadID`: Python accepts a number or a string. -/
inductive YearIn
  | num (n : Int)
  | str (s : String)
deriving DecidableEq

/-- Normalisation of the year input performed by `loadID`
(`year = str(year)` when the input is not a string). -/
def YearIn.normalize : YearIn → String
  | .num n => toString n
  | .str s => s

/-- Model of `socios.loadID`: subsets Answer or Profile IDs by year.
Link rows are first restricted to those with non-zero `GroupID` and a
non-zero selected identifier; with a year, groups are matched on the
stringified year and the links restricted to those groups. -/
def loadID (t : Tables) (year : Option YearIn) (id_name : IdName) : List Int :=
  let all_ids := t.links.filter (fun l => !(l.groupID == 0) && !(id_name.get l == 0))
  match year with
  | none => pdUnique (all_ids.map id_name.get)
  | some y =>
      let id_select := (t.groups.filter (fun g => g.year == y.normalize)).map Group.groupID
      pdUnique ((all_ids.filter (fun l => id_select.contains l.groupID)).map id_name.get)

/-- Model of `socios.loadQuestions`: all questions, optionally
restricted to one data-type category. -/
def loadQuestions (t : Tables) (dtype : Option Dtype) : List Question :=
  match dtype with
  | none => t.questions
  | some d => t.questions.filter (fun q => q.datatype == d)

/-- Result row of `searchQuestions`: the selected columns
`['Question', 'Datatype', 'QuestionaireID', 'ColumnNo', 'Lower',
'Upper']`, with `none` bounds for a question missing constraint data. -/
structure QRow where
  question : String
  datatype : Dtype
  questionaireID : Int
  columnNo : Nat
  lower : Option Int
  upper : Option Int
deriving DecidableEq

/-- One row of `qu.join(qcons, 'QuestionID', rsuffix='_c')` restricted
to the output columns: a question left-joined with its constraint row. -/
def joinRow (t : Tables) (q : Question) : QRow :=
  { question := q.question
    datatype := q.datatype
    questionaireID := q.questionaireID
    columnNo := q.columnNo
    lower := (t.qconstraints q.questionID).map QConstraint.lower
    upper := (t.qconstraints q.questionID).map QConstraint.upper }

/-- Model of Python `str.lower()`: lower-case every character.  This is
`String.toLower`, spelled as a structural map over the character list
(the ASCII terms and question texts of this repository are unaffected
by the difference between Python's Unicode lowering and
`Char.toLower`). -/
def strLower (s : String) : String := ⟨s.data.map Char.toLower⟩

/-- Matching one alternative of the generated regex pattern at the head
of the text: `'.'` matches any character, other characters themselves. -/
def seqMatchAt : List Char → List Char → Bool
  | [], _ => true
  | _ :: _, [] => false
  | p :: ps, c :: cs => (p == '.' || p == c) && seqMatchAt ps cs

/-- Matching one alternative anywhere in the text (`re.search`). -/
def seqSearch (p : List Char) : List Char → Bool
  | [] => seqMatchAt p []
  | c :: cs => seqMatchAt p (c :: cs) || seqSearch p cs

/-- Model of `Series.str.contains(pat)` for the patterns this repository
generates (`'|'.join(terms)`): the pattern splits on `'|'` into
alternatives and the text matches if some alternative matches. -/
def reContains (pattern text : List Char) : Bool :=
  ((pattern.splitOn '|').map (fun alt => seqSearch alt text)).any id

/-- Model of `socios.searchQuestions`: lowers the search terms, joins
questions with constraints, optionally restricts to one data type and
to one (validated) questionnaire id, then keeps the rows whose lowered
question text matches the `'|'`-joined pattern of the lowered terms. -/
def searchQuestions (t : Tables) (searchterm : List String) (qnairid : Option Int)
    (dtype : Option Dtype) : Except PyError (List QRow) :=
  let terms := searchterm.map strLower
  let pattern := List.intercalate ['|'] (terms.map String.toList)
  let qdf := (loadQuestions t dtype).map (joinRow t)
  let qnairids := t.questionaires
  match qnairid with
  | none => .ok (qdf.filter (fun r => reContains pattern (strLower r.question).toList))
  | some qid =>
      if qnairids.contains qid then
        .ok ((qdf.filter (fun r => r.questionaireID == qid)).filter
          (fun r => reContains pattern (strLower r.question).toList))
      else
        .error (.invalidQnair qnairids)

/-- Row of the answer subtable returned by `searchAnswers`
(`ans.iloc[:, [0] + list(questions['ColumnNo'])]`): the respondent
identifier plus the selected cells, each tagged with the positional
column number that also serves as the pandas column label. -/
structure SelRow where
  answerID : Int
  values : List (Nat × Option ℚ)
deriving DecidableEq

/-- Model of `socios.searchAnswers` at `dtype='num'`: resolves the
questions for one search term, restricts the numeric answer rows to the
respondents who answered the given questionnaire, and selects the
identifier column plus each matched question's column.  A `None` result
from `searchQuestions` makes the Python `questions['ColumnNo']` raise,
modelled by propagating the error. -/
def searchAnswers (t : Tables) (term : String) (qnairid : Int) :
    Except PyError (List SelRow × List QRow) :=
  match searchQuestions t [term] (some qnairid) (some .num) with
  | .error e => .error e
  | .ok questions =>
      let valid := (t.answers.filter (fun a => a.questionaireID == qnairid)).map AnsRow.answerID
      let rows := t.answers_num.filter (fun r => valid.contains r.answerID)
      let cols := questions.map QRow.columnNo
      .ok (rows.map (fun r => ⟨r.answerID, cols.map (fun c => (c, r.cells c))⟩), questions)

/-- Row of the growing feature frame inside `featureFrame`: the
respondent identifier plus, per feature already processed, the list of
labelled cells that feature contributed (empty for the initial
one-column frame). -/
structure FRow where
  answerID : Int
  values : List (List (Nat × Option ℚ))
deriving DecidableEq

/-- One left row of an outer merge: the row is paired with each
matching right row, or NaN-filled cells labelled by `cols` if none
matches. -/
def mergeRow (newdata : List SelRow) (cols : List Nat) (dr : FRow) : List FRow :=
  match newdata.filter (fun m => m.answerID == dr.answerID) with
  | [] => [⟨dr.answerID, dr.values ++ [cols.map (fun c => (c, (none : Option ℚ)))]⟩]
  | ms => ms.map fun m => ⟨dr.answerID, dr.values ++ [m.values]⟩

/-- Model of `pd.merge(data, newdata, how='outer', on='AnswerID')`.
Every left row is merged by `mergeRow`, then right rows without a left
partner are appended with all previous features NaN-filled (labelled by
`prevCols`).  pandas may additionally sort the keys of an outer merge;
all properties proved below are insensitive to row order. -/
def outerMerge (data : List FRow) (newdata : List SelRow)
    (prevCols : List (List Nat)) (cols : List Nat) : List FRow :=
  data.flatMap (mergeRow newdata cols)
  ++ ((newdata.filter fun m => !(data.any fun dr => dr.answerID == m.answerID)).map
      fun m => ⟨m.answerID,
        prevCols.map (fun pc => pc.map (fun c => (c, (none : Option ℚ)))) ++ [m.values]⟩)

/-- Loop body of `socios.featureFrame`: for each feature in input order,
extract its answers (questionnaire 6 for years ≤ 1999, else 3), keep
only the rows whose identifier is already in the frame, outer-join them
onto the frame, and accumulate the feature-tagged question rows. -/
def featureFrameGo (t : Tables) (year : Int) :
    List String → List FRow → List (List Nat) → List (QRow × String) →
    Except PyError (List FRow × List (QRow × String))
  | [], data, _, fqs => .ok (data, fqs)
  | f :: fs, data, prevCols, fqs =>
      match searchAnswers t f (if year ≤ 1999 then 6 else 3) with
      | .error e => .error e
      | .ok (d, qs) =>
          let cols := qs.map QRow.columnNo
          let newdata := d.filter (fun r => data.any (fun dr => dr.answerID == r.answerID))
          featureFrameGo t year fs (outerMerge data newdata prevCols cols)
            (prevCols ++ [cols]) (fqs ++ qs.map (fun q => (q, f)))

/-- Model of `socios.featureFrame` (imported by the evidence script as
`buildFeatureFrame`): starts from the Identity Resolver's respondent
set for the year and folds the features over it. -/
def featureFrame (t : Tables) (features : List String) (year : Int) :
    Except PyError (List FRow × List (QRow × String)) :=
  featureFrameGo t year features
    ((loadID t (some (.num year)) .answerID).map (fun i => ⟨i, []⟩)) [] []

/-- List of random variables in the Bayesian network (`bn_evidence.bn_n`). -/
def bn_n : List String :=
  ["monthly_income", "water_access", "roof_material", "wall_material",
   "cb_size", "floor_area", "geyser_nr"]

/-- Search terms of `evidence2000`, valid for surveys from 2000 onwards. -/
def searchlist : List String :=
  ["earn per month", "watersource", "GeyserNumber", "GeyserBroken",
   "roof", "wall", "main switch", "floor area"]

/-- Income bin boundaries of `evidence2000`. -/
def income_bins : List ℚ :=
  [0, 1800, 3200, 7800, 11600, 19116, 24500, 65600, 500000]

/-- Income bin labels of `evidence2000`. -/
def income_labels : List String :=
  ["R0-R1799", "R1800-R3199", "R3200-R7799", "R7800-R11599",
   "R11600-R19115", "R19116-R24499", "R24500-R65499", "+R65500"]

/-- Floor-area bin boundaries of `evidence2000`. -/
def floorarea_bins : List ℚ := [0, 50, 80, 150, 250, 500]

/-- Floor-area bin labels of `evidence2000`. -/
def floorarea_labels : List String := ["0-50", "50-80", "80-150", "150-250", "250-500"]

/-- Model of `pd.cut(x, bins, labels, right=False, include_lowest=True)`
on one value: left-closed right-open intervals, `none` outside all
bins. -/
def pdCutLeft (bins : List ℚ) (labels : List String) (x : ℚ) : Option String :=
  match bins, labels with
  | b1 :: b2 :: bs, l :: ls =>
      if b1 ≤ x ∧ x < b2 then some l else pdCutLeft (b2 :: bs) ls x
  | _, _ => none

/-- Model of `pd.cut(x, bins, labels)` with the default right-closed
intervals `(b1, b2]`, `none` outside all bins. -/
def pdCutRight (bins : List ℚ) (labels : List String) (x : ℚ) : Option String :=
  match bins, labels with
  | b1 :: b2 :: bs, l :: ls =>
      if b1 < x ∧ x ≤ b2 then some l else pdCutRight (b2 :: bs) ls x
  | _, _ => none

/-- Round-half-to-even, the rounding `'{:.0f}'.format` applies, spelled
in integer arithmetic on the numerator and denominator (`n` is the floor
of `q` and `r2` is twice the numerator of the fractional part over
`q.den`) so that concrete runs evaluate inside the kernel.  All values
reaching the formatter in this pipeline are integral, where every
rounding convention agrees. -/
def roundHalfEven (q : ℚ) : Int :=
  let n := Int.fdiv q.num q.den
  let r2 := 2 * (q.num - n * q.den)
  if r2 < (q.den : Int) then n
  else if (q.den : Int) < r2 then n + 1
  else if n % 2 = 0 then n else n + 1

/-- Model of `Series.map('{:.0f}'.format, na_action=None)` on one cell.
`na_action=None` (the pandas default) applies the function to NaN cells
as well, and `'{:.0f}'.format(nan)` is the string `"nan"` — a missing
cell therefore becomes the non-empty string `"nan"`, not a missing
value. -/
def pyF0 : Option ℚ → String
  | none => "nan"
  | some q => toString (roundHalfEven q)

/-- NaN-propagating subtraction
(`featureframe['115'] - featureframe['131']`).  The difference is
spelled with `mkRat` over the cross-multiplied numerators so that
concrete runs evaluate inside the kernel; `optSub_eq_sub` below shows it
is exact rational subtraction. -/
def optSub : Option ℚ → Option ℚ → Option ℚ
  | some a, some b => some (mkRat (a.num * b.den - b.num * a.den) (a.den * b.den))
  | _, _ => none

/-- Model of `DataFrame.to_dict('index')`: keeps the first occurrence of
each key (in order) mapped to its last-written value, as a Python dict
built by iterating the rows would. -/
def dedupKeys {β : Type} (l : List (String × β)) : List (String × β) :=
  (pdUnique (l.map Prod.fst)).filterMap (fun k => (l.reverse.lookup k).map (fun v => (k, v)))

/-- Evidence re-encoding of one feature-frame row, modelling the
column-level steps of `evidence2000` row-wise (all rows of the frame
share one column layout, so the frame-level column operations act
cell-wise): derive `geyser_nr` from the columns labelled 115 and 131,
drop those two columns, positionally rename the remaining ones to
`bn_n`, bin `monthly_income` and `floor_area`, integer-format the other
variables (turning NaN into `"nan"`), replace remaining NaN by `""`,
and keep only the pairs whose value is not the empty string. -/
def encodeRow (r : FRow) : Except PyError (String × List (String × String)) :=
  let flat := r.values.flatten
  match flat.lookup 115 with
  | none => .error (.keyError 115)
  | some v115 =>
    match flat.lookup 131 with
    | none => .error (.keyError 131)
    | some v131 =>
      let geyser := optSub v115 v131
      match flat.filter (fun p => !(p.1 == 115) && !(p.1 == 131)) with
      | [inc, wat, roo, wal, cb, flo] =>
          let vals : List String :=
            [((inc.2.bind (pdCutLeft income_bins income_labels)).getD ""),
             pyF0 wat.2, pyF0 roo.2, pyF0 wal.2, pyF0 cb.2,
             ((flo.2.bind (pdCutRight floorarea_bins floorarea_labels)).getD ""),
             pyF0 geyser]
          .ok (toString r.answerID, (bn_n.zip vals).filter (fun kv => !(kv.2 == "")))
      | _ => .error .valueError

/-- Error-propagating map over a list, failing at the first failing
element (as the Python loop would raise there). -/
def mapExcept {α β : Type} (f : α → Except PyError β) : List α → Except PyError (List β)
  | [] => .ok []
  | a :: l =>
      match f a with
      | .error e => .error e
      | .ok b =>
          match mapExcept f l with
          | .error e => .error e
          | .ok bs => .ok (b :: bs)

/-- Output directory of the evidence artifact.  The source derives the
absolute path `<repo>/output` from the script location; the repository-
relative path is modelled. -/
def output_dir : String := "output"

/-- Result of a successful `evidence2000` run: the artifact written
(file name, directory, serialized object-of-objects), the reported
message, and the Python return value. -/
structure RunOutput where
  filename : String
  dir : String
  contents : List (String × List (String × String))
  message : String
  ret : Option (List (String × List (String × String)))
deriving DecidableEq

/-- Frame-level part of `evidence2000` after `buildFeatureFrame`:
checks that the columns labelled 115 and 131 exist (`KeyError`
otherwise) and that 8 data columns remain for the positional rename
(`ValueError` otherwise), encodes every row, deduplicates the dict
keys, and assembles the artifact.  The run writes the serialized
evidence and reports the destination, but `return #evidence` returns
`None`: `ret := none`. -/
def encodeFrame (year : Int) (ff : List FRow) (fqs : List (QRow × String)) :
    Except PyError RunOutput :=
  let cols := (fqs.map (fun qf => qf.1.columnNo))
  if 115 ∈ cols then
    if 131 ∈ cols then
      if (cols.filter (fun c => !(c == 115) && !(c == 131))).length = 6 then
        match mapExcept encodeRow ff with
        | .error e => .error e
        | .ok rows =>
            let evidence := dedupKeys rows
            let filename := "bn_evidence_" ++ toString year ++ ".txt"
            .ok ⟨filename, output_dir, evidence,
              filename ++ " successfully saved to " ++ output_dir, none⟩
      else .error .valueError
    else .error (.keyError 131)
  else .error (.keyError 115)

/-- Model of `bn_evidence.evidence2000`: assemble the feature frame for
the fixed search-term list and the year, then re-encode it into the
evidence artifact. -/
def evidence2000 (t : Tables) (year : Int) : Except PyError RunOutput :=
  match featureFrame t searchlist year with
  | .error e => .error e
  | .ok (ff, fqs) => encodeFrame year ff fqs

/-- Spec-side matcher: the pattern matches at the head of the text by
plain character equality (no wildcard). -/
def litMatchAt : List Char → List Char → Bool
  | [], _ => true
  | _ :: _, [] => false
  | p :: ps, c :: cs => p == c && litMatchAt ps cs

/-- Spec-side substring containment, following the spec's words
"contains ... as a ... substring": the pattern occurs contiguously
somewhere in the text. -/
def substrB (p : List Char) : List Char → Bool
  | [] => litMatchAt p []
  | c :: cs => litMatchAt p (c :: cs) || substrB p cs

/-- Definition following the spec's words for the Question Resolver
result: the questions, restricted by the optional data type and
questionnaire id, whose lowered text contains at least one lowered
search term as a substring, each left-joined with its constraints. -/
def specSearch (t : Tables) (terms : List String) (qnairid : Option Int)
    (dtype : Option Dtype) : List QRow :=
  (t.questions.filter (fun q =>
      (match dtype with | none => true | some d => q.datatype == d) &&
      (match qnairid with | none => true | some qi => q.questionaireID == qi) &&
      terms.any (fun s => substrB (strLower s).toList (strLower q.question).toList))).map
    (joinRow t)

/-- Numeric answer cells of respondent 1 of the concrete store `tsMain`:
every surveyed variable answered except the main-switch (cb size)
question at column 106, which is missing. -/
def cellsR1 : Nat → Option ℚ := fun c =>
  if c = 101 then some 5000
  else if c = 102 then some 2
  else if c = 115 then some 2
  else if c = 131 then some 1
  else if c = 104 then some 3
  else if c = 105 then some 4
  else if c = 107 then some 90
  else none

/-- Numeric answer cells of respondent 2 of `tsMain`: every surveyed
variable answered. -/
def cellsR2 : Nat → Option ℚ := fun c =>
  if c = 101 then some 1000
  else if c = 102 then some 1
  else if c = 115 then some 1
  else if c = 131 then some 0
  else if c = 104 then some 1
  else if c = 105 then some 1
  else if c = 106 then some 60
  else if c = 107 then some 45
  else none

/-- Concrete table store: one 2014 group with two respondents, one
numeric question per evidence search term on questionnaire 3.
Respondent 1's cb-size answer is missing. -/
def tsMain : Tables :=
  { groups := [⟨10, "2014", "Test Town"⟩]
    links := [⟨10, 1, 0⟩, ⟨10, 2, 0⟩]
    questions :=
      [⟨1, "earn per month", .num, 3, 101⟩,
       ⟨2, "watersource", .num, 3, 102⟩,
       ⟨3, "GeyserNumber", .num, 3, 115⟩,
       ⟨4, "GeyserBroken", .num, 3, 131⟩,
       ⟨5, "roof", .num, 3, 104⟩,
       ⟨6, "wall", .num, 3, 105⟩,
       ⟨7, "main switch", .num, 3, 106⟩,
       ⟨8, "floor area", .num, 3, 107⟩]
    qconstraints := fun _ => none
    questionaires := [3]
    answers := [⟨1, 3⟩, ⟨2, 3⟩]
    answers_num := [⟨1, cellsR1⟩, ⟨2, cellsR2⟩] }

/-- Concrete table store with a single question whose text `"axb"` is
matched by the regular expression `"a.b"` although it does not contain
`"a.b"` as a substring. -/
def tsC6 : Tables :=
  { groups := []
    links := []
    questions := [⟨1, "axb", .num, 3, 201⟩]
    qconstraints := fun _ => none
    questionaires := [3]
    answers := []
    answers_num := [] }

/-- Feature frame assembled at the concrete store `tsMain` for 2014
(the run succeeds, so the fallback branch is never taken). -/
def ffMain : List FRow × List (QRow × String) :=
  match featureFrame tsMain searchlist 2014 with
  | .ok r => r
  | .error _ => ([], [])

/-- Evidence-run output at the concrete store `tsMain` for 2014 (the
run succeeds, so the fallback branch is never taken). -/
def outMain : RunOutput :=
  match evidence2000 tsMain 2014 with
  | .ok o => o
  | .error _ => ⟨"", "", [], "", none⟩

/-- The kernel-friendly spelling of `optSub` is exact rational
subtraction. -/
theorem optSub_eq_sub (a b : ℚ) : optSub (some a) (some b) = some (a - b) := by
  have ha : (a.den : ℚ) ≠ 0 := by exact_mod_cast a.den_nz
  have hb : (b.den : ℚ) ≠ 0 := by exact_mod_cast b.den_nz
  simp only [optSub, Rat.mkRat_eq_div]
  congr 1
  conv_rhs => rw [← Rat.num_div_den a, ← Rat.num_div_den b]
  rw [div_sub_div _ _ ha hb]
  push_cast
  ring_nf

/-! Lemmas about `pdUnique`. -/

theorem mem_pdUniqueAux {α : Type} [DecidableEq α] (l : List α) :
    ∀ (seen : List α) (x : α), x ∈ pdUniqueAux seen l ↔ x ∈ l ∧ x ∉ seen := by
  induction l with
  | nil => intro seen x; simp [pdUniqueAux]
  | cons a l ih =>
      intro seen x
      by_cases h : a ∈ seen
      · simp only [pdUniqueAux, if_pos h, ih, List.mem_cons]
        constructor
        · exact fun ⟨hx, hs⟩ => ⟨Or.inr hx, hs⟩
        · rintro ⟨rfl | hx, hs⟩
          · exact absurd h hs
          · exact ⟨hx, hs⟩
      · simp only [pdUniqueAux, if_neg h, List.mem_cons, ih]
        constructor
        · rintro (rfl | ⟨hx, hs⟩)
          · exact ⟨Or.inl rfl, h⟩
          · exact ⟨Or.inr hx, fun hs2 => hs (Or.inr hs2)⟩
        · rintro ⟨rfl | hx, hs⟩
          · exact Or.inl rfl
          · rcases eq_or_ne x a with rfl | hne
            · exact Or.inl rfl
            · exact Or.inr ⟨hx, fun h2 => h2.elim hne hs⟩

theorem nodup_pdUniqueAux {α : Type} [DecidableEq α] (l : List α) :
    ∀ seen : List α, (pdUniqueAux seen l).Nodup := by
  induction l with
  | nil => intro seen; simp [pdUniqueAux]
  | cons a l ih =>
      intro seen
      by_cases h : a ∈ seen
      · simpa [pdUniqueAux, h] using ih seen
      · rw [pdUniqueAux, if_neg h]
        refine List.nodup_cons.mpr ⟨?_, ih _⟩
        intro hmem
        exact ((mem_pdUniqueAux l _ a).mp hmem).2 (List.mem_cons_self a seen)

theorem mem_pdUnique {α : Type} [DecidableEq α] {l : List α} {x : α} :
    x ∈ pdUnique l ↔ x ∈ l := by
  simp [pdUnique, mem_pdUniqueAux]

theorem nodup_pdUnique {α : Type} [DecidableEq α] (l : List α) : (pdUnique l).Nodup :=
  nodup_pdUniqueAux l []

/-- Claim C9: for every table store, optional year (number or string)
and identifier kind, the Identity Resolver returns a list with no
duplicate and no zero identifier, drawn only from link rows whose group
id is non-zero. -/
theorem loadID_nodup_nonzero : ∀ (t : Tables) (year : Option YearIn) (kind : IdName),
    (loadID t year kind).Nodup ∧
    ∀ i, i ∈ loadID t year kind →
      i ≠ 0 ∧ ∃ l ∈ t.links, l.groupID ≠ 0 ∧ kind.get l = i := by
  intro t year kind
  refine ⟨?_, ?_⟩
  · rcases year with _ | y <;> exact nodup_pdUnique _
  · intro i hi
    rcases year with _ | y
    · simp only [loadID, mem_pdUnique, List.mem_map, List.mem_filter, Bool.and_eq_true,
        Bool.not_eq_true', beq_eq_false_iff_ne] at hi
      obtain ⟨l, ⟨hl, hg, hz⟩, rfl⟩ := hi
      exact ⟨hz, l, hl, hg, rfl⟩
    · simp only [loadID, mem_pdUnique, List.mem_map, List.mem_filter, Bool.and_eq_true,
        Bool.not_eq_true', beq_eq_false_iff_ne] at hi
      obtain ⟨l, ⟨⟨hl, hg, hz⟩, -⟩, rfl⟩ := hi
      exact ⟨hz, l, hl, hg, rfl⟩

/-- Witness for C9 at the concrete store `tsMain` and year 2014. -/
theorem loadID_nodup_nonzero_witness :
    (loadID tsMain (some (.num 2014)) .answerID).Nodup ∧
    ((1 : Int) ≠ 0 ∧ ∃ l ∈ tsMain.links, l.groupID ≠ 0 ∧ IdName.answerID.get l = 1) :=
  ⟨(loadID_nodup_nonzero tsMain (some (.num 2014)) .answerID).1,
   (loadID_nodup_nonzero tsMain (some (.num 2014)) .answerID).2 1 (by decide)⟩

/-- Claim C8: an unknown questionnaire id makes the Question Resolver
report a usage error carrying the valid id set, with no result table. -/
theorem searchQuestions_invalid_qnair :
    ∀ (t : Tables) (terms : List String) (qid : Int) (dtype : Option Dtype),
    qid ∉ t.questionaires →
    searchQuestions t terms (some qid) dtype = .error (.invalidQnair t.questionaires) := by
  intro t terms qid dtype h
  simp only [searchQuestions]
  rw [if_neg]
  simpa [List.elem_iff] using h

/-- Witness for C8: questionnaire id 99 is not in `tsMain`'s id set. -/
theorem searchQuestions_invalid_qnair_witness :
    searchQuestions tsMain ["roof"] (some 99) none =
      .error (.invalidQnair tsMain.questionaires) :=
  searchQuestions_invalid_qnair tsMain ["roof"] 99 none (by decide)

set_option maxHeartbeats 2000000 in
/-- Claim C4: the monthly-income binning is total and exclusive over
the eight left-closed right-open ranges, mapping any value below 0 or
at or above 500000 to missing. -/
theorem income_binning_total_exclusive : ∀ x : ℚ,
    pdCutLeft income_bins income_labels x =
      if x < 0 then none
      else if x < 1800 then some "R0-R1799"
      else if x < 3200 then some "R1800-R3199"
      else if x < 7800 then some "R3200-R7799"
      else if x < 11600 then some "R7800-R11599"
      else if x < 19116 then some "R11600-R19115"
      else if x < 24500 then some "R19116-R24499"
      else if x < 65600 then some "R24500-R65499"
      else if x < 500000 then some "+R65500"
      else none := by
  intro x
  simp only [income_bins, income_labels, pdCutLeft]
  split_ifs <;> try rfl
  all_goals exfalso
  all_goals try simp_all only [not_and_or, not_le, not_lt, not_true, not_false_iff]
  all_goals try casesm* _ ∨ _, _ ∧ _
  all_goals first
    | exact ‹False›
    | exact absurd trivial ‹¬True›
    | linarith

/-- Claim C2 (evaluation of the code at the failing input): respondent 1
of `tsMain` has a missing cb-size answer, yet the emitted evidence
record for respondent "1" contains the key `cb_size`, mapped to the
string `"nan"`. -/
theorem missing_cb_size_emitted_as_nan :
    (evidence2000 tsMain 2014).map
        (fun o => (o.contents.lookup "1").map (fun r => r.lookup "cb_size")) =
      .ok (some (some "nan")) := by
  rfl

/-- Claim C3 (evaluation of the code at the failing input): the
formatting step maps a missing cell to the non-missing string `"nan"`
(`pyF0 none = "nan"`), and a row with a missing cb-size cell is encoded
with `cb_size` bound to `"nan"` rather than left missing. -/
theorem formatting_turns_missing_into_nan :
    pyF0 none = "nan" ∧
    encodeRow ⟨7, [[(101, some 1000)], [(102, some 1)], [(115, some 1)], [(131, some 0)],
        [(104, some 1)], [(105, some 1)], [(106, none)], [(107, some 45)]]⟩ =
      .ok ("7",
        [("monthly_income", "R0-R1799"), ("water_access", "1"), ("roof_material", "1"),
         ("wall_material", "1"), ("cb_size", "nan"), ("floor_area", "0-50"),
         ("geyser_nr", "1")]) :=
  ⟨rfl, rfl⟩

/-- Counterexample for C5: the run at `tsMain` for 2014 succeeds with a
two-record mapping, but the function returns `none` (the Python source
ends in `return #evidence`), not the in-memory mapping. -/
theorem evidence_returns_none_counterexample :
    (evidence2000 tsMain 2014).map RunOutput.ret = .ok none ∧
    (evidence2000 tsMain 2014).map (fun o => o.contents.length) = .ok 2 :=
  ⟨rfl, rfl⟩

/-! Lemmas about `outerMerge` and `featureFrameGo`, leading to the row
count, duplicate-freeness and identifier-set invariants of the Feature
Assembler (claims C7 and C10). -/

theorem mergeRow_length_pos (nd : List SelRow) (cols : List Nat) (dr : FRow) :
    1 ≤ (mergeRow nd cols dr).length := by
  rcases hms : nd.filter (fun m => m.answerID == dr.answerID) with _ | ⟨m0, ms0⟩
  · simp [mergeRow, hms]
  · simp [mergeRow, hms]

theorem mem_mergeRow_ids (nd : List SelRow) (cols : List Nat) (dr : FRow) (i : Int) :
    i ∈ (mergeRow nd cols dr).map FRow.answerID ↔ i = dr.answerID := by
  rcases hms : nd.filter (fun m => m.answerID == dr.answerID) with _ | ⟨m0, ms0⟩
  · simp [mergeRow, hms, eq_comm]
  · simp only [mergeRow, hms, List.map_map]
    constructor
    · rintro h
      rcases List.mem_map.mp h with ⟨m, _, rfl⟩
      rfl
    · rintro rfl
      exact List.mem_map.mpr ⟨m0, by simp, rfl⟩

theorem filter_eq_nil_or_single {nd : List SelRow}
    (h : (nd.map SelRow.answerID).Nodup) (k : Int) :
    nd.filter (fun m => m.answerID == k) = [] ∨
    ∃ m, nd.filter (fun m => m.answerID == k) = [m] := by
  induction nd with
  | nil => exact Or.inl rfl
  | cons m nd ih =>
      simp only [List.map_cons, List.nodup_cons] at h
      obtain ⟨hnm, hnd⟩ := h
      by_cases hk : m.answerID = k
      · right
        refine ⟨m, ?_⟩
        rw [List.filter_cons_of_pos (by simp [hk])]
        rw [List.filter_eq_nil_iff.mpr]
        intro m2 hm2 hb
        exact hnm (by
          have : m2.answerID = k := by simpa using hb
          rw [hk, ← this]
          exact List.mem_map.mpr ⟨m2, hm2, rfl⟩)
      · rw [List.filter_cons_of_neg (by simp [hk])]
        exact ih hnd

theorem mergeRow_ids_single {nd : List SelRow} (h : (nd.map SelRow.answerID).Nodup)
    (cols : List Nat) (dr : FRow) :
    (mergeRow nd cols dr).map FRow.answerID = [dr.answerID] := by
  rcases filter_eq_nil_or_single h dr.answerID with hnil | ⟨m, hm⟩
  · simp [mergeRow, hnil]
  · simp [mergeRow, hm]

theorem outerMerge_right_nil {data : List FRow} {nd : List SelRow}
    (h : ∀ m ∈ nd, m.answerID ∈ data.map FRow.answerID) :
    (nd.filter fun m => !(data.any fun dr => dr.answerID == m.answerID)) = [] := by
  apply List.filter_eq_nil_iff.mpr
  intro m hm
  have hany : (data.any fun dr => dr.answerID == m.answerID) = true := by
    rcases List.mem_map.mp (h m hm) with ⟨dr, hdr, hEq⟩
    exact List.any_eq_true.mpr ⟨dr, hdr, by simp [hEq]⟩
  simp [hany]

theorem outerMerge_ids {data : List FRow} {nd : List SelRow}
    (pc : List (List Nat)) (cols : List Nat)
    (h : ∀ m ∈ nd, m.answerID ∈ data.map FRow.answerID) (i : Int) :
    i ∈ (outerMerge data nd pc cols).map FRow.answerID ↔ i ∈ data.map FRow.answerID := by
  unfold outerMerge
  rw [outerMerge_right_nil h]
  simp only [List.map_nil, List.append_nil, List.map_flatMap, List.mem_flatMap]
  constructor
  · rintro ⟨dr, hdr, hi⟩
    rw [mem_mergeRow_ids] at hi
    exact List.mem_map.mpr ⟨dr, hdr, hi.symm⟩
  · intro hi
    rcases List.mem_map.mp hi with ⟨dr, hdr, rfl⟩
    exact ⟨dr, hdr, (mem_mergeRow_ids nd cols dr _).mpr rfl⟩

theorem flatMap_mergeRow_ids {nd : List SelRow} (h2 : (nd.map SelRow.answerID).Nodup)
    (cols : List Nat) :
    ∀ data : List FRow,
      (data.flatMap (mergeRow nd cols)).map FRow.answerID = data.map FRow.answerID := by
  intro data
  induction data with
  | nil => rfl
  | cons dr data ih =>
      simp only [List.flatMap_cons, List.map_append, mergeRow_ids_single h2,
        List.map_cons, List.singleton_append, ih]

theorem outerMerge_ids_eq {data : List FRow} {nd : List SelRow}
    (pc : List (List Nat)) (cols : List Nat)
    (h : ∀ m ∈ nd, m.answerID ∈ data.map FRow.answerID)
    (h2 : (nd.map SelRow.answerID).Nodup) :
    (outerMerge data nd pc cols).map FRow.answerID = data.map FRow.answerID := by
  unfold outerMerge
  rw [outerMerge_right_nil h]
  simp only [List.map_nil, List.append_nil, List.map_append]
  exact flatMap_mergeRow_ids h2 cols data

theorem outerMerge_length (data : List FRow) (nd : List SelRow)
    (pc : List (List Nat)) (cols : List Nat) :
    data.length ≤ (outerMerge data nd pc cols).length := by
  unfold outerMerge
  rw [List.length_append]
  have hA : data.length ≤ (data.flatMap (mergeRow nd cols)).length := by
    induction data with
    | nil => simp
    | cons dr data ih =>
        simp only [List.flatMap_cons, List.length_append, List.length_cons]
        have := mergeRow_length_pos nd cols dr
        omega
  omega

theorem newdata_sub (d : List SelRow) (data : List FRow) :
    ∀ m ∈ d.filter (fun r => data.any (fun dr => dr.answerID == r.answerID)),
      m.answerID ∈ data.map FRow.answerID := by
  intro m hm
  rw [List.mem_filter] at hm
  obtain ⟨-, hany⟩ := hm
  obtain ⟨dr, hdr, hEq⟩ := List.any_eq_true.mp hany
  exact List.mem_map.mpr ⟨dr, hdr, by simpa using hEq⟩

theorem searchAnswers_ids_nodup (t : Tables) (f : String) (qn : Int)
    (d : List SelRow) (qs : List QRow)
    (h : searchAnswers t f qn = .ok (d, qs))
    (hN : (t.answers_num.map NumRow.answerID).Nodup) :
    (d.map SelRow.answerID).Nodup := by
  unfold searchAnswers at h
  rcases hq : searchQuestions t [f] (some qn) (some .num) with e | questions
  · rw [hq] at h; cases h
  · rw [hq] at h
    cases h
    rw [List.map_map]
    exact hN.sublist ((List.filter_sublist _).map NumRow.answerID)

theorem ffGo_mem (t : Tables) (year : Int) :
    ∀ (fs : List String) (data : List FRow) (pc : List (List Nat))
      (fqs : List (QRow × String)) (res : List FRow × List (QRow × String)),
    featureFrameGo t year fs data pc fqs = .ok res →
    ∀ i, i ∈ res.1.map FRow.answerID ↔ i ∈ data.map FRow.answerID := by
  intro fs
  induction fs with
  | nil =>
      intro data pc fqs res h i
      simp only [featureFrameGo] at h
      cases h
      exact Iff.rfl
  | cons f fs ih =>
      intro data pc fqs res h i
      simp only [featureFrameGo] at h
      rcases hsa : searchAnswers t f (if year ≤ 1999 then 6 else 3) with e | ⟨d, qs⟩
      · rw [hsa] at h; cases h
      · rw [hsa] at h
        exact (ih _ _ _ _ h i).trans (outerMerge_ids _ _ (newdata_sub d data) i)

theorem ffGo_length (t : Tables) (year : Int) :
    ∀ (fs : List String) (data : List FRow) (pc : List (List Nat))
      (fqs : List (QRow × String)) (res : List FRow × List (QRow × String)),
    featureFrameGo t year fs data pc fqs = .ok res →
    data.length ≤ res.1.length := by
  intro fs
  induction fs with
  | nil =>
      intro data pc fqs res h
      simp only [featureFrameGo] at h
      cases h
      exact Nat.le_refl _
  | cons f fs ih =>
      intro data pc fqs res h
      simp only [featureFrameGo] at h
      rcases hsa : searchAnswers t f (if year ≤ 1999 then 6 else 3) with e | ⟨d, qs⟩
      · rw [hsa] at h; cases h
      · rw [hsa] at h
        exact Nat.le_trans (outerMerge_length _ _ _ _) (ih _ _ _ _ h)

theorem ffGo_ids_eq (t : Tables) (year : Int)
    (hN : (t.answers_num.map NumRow.answerID).Nodup) :
    ∀ (fs : List String) (data : List FRow) (pc : List (List Nat))
      (fqs : List (QRow × String)) (res : List FRow × List (QRow × String)),
    featureFrameGo t year fs data pc fqs = .ok res →
    res.1.map FRow.answerID = data.map FRow.answerID := by
  intro fs
  induction fs with
  | nil =>
      intro data pc fqs res h
      simp only [featureFrameGo] at h
      cases h
      rfl
  | cons f fs ih =>
      intro data pc fqs res h
      simp only [featureFrameGo] at h
      rcases hsa : searchAnswers t f (if year ≤ 1999 then 6 else 3) with e | ⟨d, qs⟩
      · rw [hsa] at h; cases h
      · rw [hsa] at h
        rw [ih _ _ _ _ h]
        exact outerMerge_ids_eq _ _ (newdata_sub d data)
          (((searchAnswers_ids_nodup t f _ d qs hsa hN).sublist
            ((List.filter_sublist _).map SelRow.answerID)))

theorem init_ids (t : Tables) (year : Int) :
    ((loadID t (some (.num year)) .answerID).map (fun i => (⟨i, []⟩ : FRow))).map FRow.answerID
      = loadID t (some (.num year)) .answerID := by
  rw [List.map_map]
  exact List.map_id' _

/-- Claim C7: for every feature-name list and year (over a table store
whose numeric answer table is keyed by respondent identifier, i.e. has
no duplicate AnswerID), a successfully assembled feature table has at
least as many rows as the Identity Resolver returns for that year, and
its respondent-id column has no duplicates. -/
theorem featureFrame_rowcount_nodup :
    ∀ (t : Tables) (features : List String) (year : Int)
      (res : List FRow × List (QRow × String)),
    (t.answers_num.map NumRow.answerID).Nodup →
    featureFrame t features year = .ok res →
    (loadID t (some (.num year)) .answerID).length ≤ res.1.length ∧
    (res.1.map FRow.answerID).Nodup := by
  intro t features year res hN h
  unfold featureFrame at h
  have hids := ffGo_ids_eq t year hN features _ [] [] res h
  rw [init_ids t year] at hids
  constructor
  · have : (loadID t (some (.num year)) .answerID).length = res.1.length := by
      rw [← hids, List.length_map]
    omega
  · rw [hids]
    simp only [loadID]
    exact nodup_pdUnique _

/-- Witness for C7 at the concrete store `tsMain`. -/
theorem featureFrame_rowcount_nodup_witness :
    (loadID tsMain (some (.num 2014)) .answerID).length ≤ ffMain.1.length ∧
    (ffMain.1.map FRow.answerID).Nodup :=
  featureFrame_rowcount_nodup tsMain searchlist 2014 ffMain (by decide) rfl

/-- Claim C10: for every feature-name list and year, the respondent-id
set of a successfully assembled feature table is exactly the identifier
set of the Identity Resolver for that year — each feature's answer rows
are filtered to the current identity set before the outer join, so the
join never adds a respondent. -/
theorem featureFrame_ids_exact :
    ∀ (t : Tables) (features : List String) (year : Int)
      (res : List FRow × List (QRow × String)),
    featureFrame t features year = .ok res →
    ∀ i, i ∈ res.1.map FRow.answerID ↔ i ∈ loadID t (some (.num year)) .answerID := by
  intro t features year res h i
  unfold featureFrame at h
  have hmem := ffGo_mem t year features _ [] [] res h i
  rw [init_ids t year] at hmem
  exact hmem

/-- Witness for C10 at the concrete store `tsMain`. -/
theorem featureFrame_ids_exact_witness :
    (1 : Int) ∈ ffMain.1.map FRow.answerID ↔
      1 ∈ loadID tsMain (some (.num 2014)) .answerID :=
  featureFrame_ids_exact tsMain searchlist 2014 ffMain rfl 1

/-! Lemmas about the regex fragment, leading to the amended claim C6:
on search terms free of regex metacharacters, the regex match the
Question Resolver performs coincides with case-insensitive substring
matching. -/

theorem any_congr {α : Type} {l : List α} {p q : α → Bool}
    (h : ∀ a ∈ l, p a = q a) : l.any p = l.any q := by
  induction l with
  | nil => rfl
  | cons a l ih =>
      simp only [List.any_cons, h a (List.mem_cons_self a l),
        ih (fun b hb => h b (List.mem_cons_of_mem a hb))]

theorem anyMap {α β : Type} (f : α → β) (l : List α) (p : β → Bool) :
    (l.map f).any p = l.any (fun a => p (f a)) := by
  induction l with
  | nil => rfl
  | cons a l ih => simp only [List.map_cons, List.any_cons, ih]

theorem seqMatchAt_eq_lit {p : List Char} (hp : '.' ∉ p) :
    ∀ t, seqMatchAt p t = litMatchAt p t := by
  induction p with
  | nil => intro t; cases t <;> rfl
  | cons p0 ps ih =>
      intro t
      cases t with
      | nil => rfl
      | cons a t2 =>
          have htail : '.' ∉ ps := fun hm => hp (List.mem_cons_of_mem p0 hm)
          have hc : (p0 == '.') = false := by
            simp only [beq_eq_false_iff_ne]
            intro h
            exact hp (by simp [h])
          simp only [seqMatchAt, litMatchAt, ih htail, hc, Bool.false_or]

theorem seqSearch_eq_substr {p : List Char} (hp : '.' ∉ p) :
    ∀ t, seqSearch p t = substrB p t := by
  intro t
  induction t with
  | nil => simp only [seqSearch, substrB, seqMatchAt_eq_lit hp]
  | cons a t ih => simp only [seqSearch, substrB, seqMatchAt_eq_lit hp, ih]

theorem reContains_eq_any {L : List (List Char)} (hL : L ≠ [])
    (hdot : ∀ l ∈ L, '.' ∉ l) (hbar : ∀ l ∈ L, '|' ∉ l) (t : List Char) :
    reContains (List.intercalate ['|'] L) t = L.any (fun p => substrB p t) := by
  unfold reContains
  rw [List.splitOn_intercalate L '|' hbar hL, anyMap]
  exact any_congr (fun l hl => by
    simp only [id_eq]
    exact seqSearch_eq_substr (hdot l hl) t)

/-- Amended claim C6 (C6 as stated fails on regex metacharacters): for
every non-empty list of search terms whose lowered forms contain no
regex metacharacter, and for a data-type restriction and a valid
questionnaire-id restriction (each optional), the Question Resolver
returns exactly the questions — restricted first by data type and
questionnaire id — whose text contains at least one of the terms as a
case-insensitive substring. -/
theorem searchQuestions_substring_amended :
    ∀ (t : Tables) (terms : List String) (qnairid : Option Int) (dtype : Option Dtype),
    (∀ s ∈ terms, '.' ∉ (strLower s).toList ∧ '|' ∉ (strLower s).toList) →
    terms ≠ [] →
    (∀ qi, qnairid = some qi → qi ∈ t.questionaires) →
    searchQuestions t terms qnairid dtype = .ok (specSearch t terms qnairid dtype) := by
  intro t terms qnairid dtype hmeta hne hvalid
  have hL : ((terms.map strLower).map String.toList) ≠ [] := by
    intro h
    exact hne (List.map_eq_nil_iff.mp (List.map_eq_nil_iff.mp h))
  have hdot : ∀ l ∈ (terms.map strLower).map String.toList, '.' ∉ l := by
    intro l hl
    rcases List.mem_map.mp hl with ⟨s2, hs2, rfl⟩
    rcases List.mem_map.mp hs2 with ⟨s, hs, rfl⟩
    exact (hmeta s hs).1
  have hbar : ∀ l ∈ (terms.map strLower).map String.toList, '|' ∉ l := by
    intro l hl
    rcases List.mem_map.mp hl with ⟨s2, hs2, rfl⟩
    rcases List.mem_map.mp hs2 with ⟨s, hs, rfl⟩
    exact (hmeta s hs).2
  have hpt : ∀ txt, reContains (List.intercalate ['|'] ((terms.map strLower).map String.toList)) txt
      = terms.any (fun s => substrB (strLower s).toList txt) := by
    intro txt
    rw [reContains_eq_any hL hdot hbar txt, anyMap, anyMap]
  rcases qnairid with _ | qi
  · rcases dtype with _ | dt
    · simp only [searchQuestions, loadQuestions, specSearch]
      rw [List.filter_map]
      refine congrArg Except.ok (congrArg (List.map (joinRow t)) (List.filter_congr ?_))
      intro q hq
      simp only [Function.comp_apply, joinRow, hpt, Bool.true_and]
    · simp only [searchQuestions, loadQuestions, specSearch]
      rw [List.filter_map, List.filter_filter]
      refine congrArg Except.ok (congrArg (List.map (joinRow t)) (List.filter_congr ?_))
      intro q hq
      simp only [Function.comp_apply, joinRow, hpt, Bool.and_true, Bool.true_and]
      cases hdt : (q.datatype == dt) <;>
        cases hany : (terms.any fun s => substrB (strLower s).toList (strLower q.question).toList) <;>
        simp
  · have hqi : qi ∈ t.questionaires := hvalid qi rfl
    rcases dtype with _ | dt
    · simp only [searchQuestions, loadQuestions, specSearch]
      rw [if_pos (List.elem_iff.mpr hqi)]
      rw [List.filter_map, List.filter_map, List.filter_filter]
      refine congrArg Except.ok (congrArg (List.map (joinRow t)) (List.filter_congr ?_))
      intro q hq
      simp only [Function.comp_apply, joinRow, hpt, Bool.true_and]
      cases hqid : (q.questionaireID == qi) <;>
        cases hany : (terms.any fun s => substrB (strLower s).toList (strLower q.question).toList) <;>
        simp
    · simp only [searchQuestions, loadQuestions, specSearch]
      rw [if_pos (List.elem_iff.mpr hqi)]
      rw [List.filter_map, List.filter_map, List.filter_filter, List.filter_filter]
      refine congrArg Except.ok (congrArg (List.map (joinRow t)) (List.filter_congr ?_))
      intro q hq
      simp only [Function.comp_apply, joinRow, hpt]
      cases hdt : (q.datatype == dt) <;>
        cases hqid : (q.questionaireID == qi) <;>
        cases hany : (terms.any fun s => substrB (strLower s).toList (strLower q.question).toList) <;>
        simp

/-! Lemmas about `List.lookup`, `dedupKeys`, `mapExcept` and
`encodeRow`, leading to claims C1 and C5. -/

theorem lookup_mem {β : Type} (k : String) (v : β) :
    ∀ l : List (String × β), l.lookup k = some v → (k, v) ∈ l := by
  intro l
  induction l with
  | nil => intro h; cases h
  | cons kv l ih =>
      intro h
      obtain ⟨k2, v2⟩ := kv
      by_cases hbk : k = k2
      · subst hbk
        simp only [List.lookup, beq_self_eq_true] at h
        cases h
        exact List.mem_cons_self _ _
      · have hb : (k == k2) = false := beq_eq_false_iff_ne.mpr hbk
        simp only [List.lookup, hb] at h
        exact List.mem_cons_of_mem _ (ih h)

theorem lookup_isSome_of_mem {β : Type} (k : String) :
    ∀ l : List (String × β), k ∈ l.map Prod.fst → ∃ v, l.lookup k = some v := by
  intro l
  induction l with
  | nil => intro h; cases h
  | cons kv l ih =>
      intro h
      obtain ⟨k2, v2⟩ := kv
      by_cases hbk : k = k2
      · subst hbk
        exact ⟨v2, by simp [List.lookup]⟩
      · have hb : (k == k2) = false := beq_eq_false_iff_ne.mpr hbk
        have h2 : k ∈ l.map Prod.fst := by
          simp only [List.map_cons, List.mem_cons] at h
          exact h.resolve_left hbk
        rcases ih h2 with ⟨v, hv⟩
        exact ⟨v, by simp [List.lookup, hb, hv]⟩

theorem dedupKeys_keys {β : Type} (l : List (String × β)) :
    (dedupKeys l).map Prod.fst = pdUnique (l.map Prod.fst) := by
  unfold dedupKeys
  have hgen : ∀ ks : List String, (∀ k ∈ ks, k ∈ (l.reverse).map Prod.fst) →
      (ks.filterMap (fun k => (l.reverse.lookup k).map (fun v => (k, v)))).map Prod.fst
        = ks := by
    intro ks
    induction ks with
    | nil => intro; rfl
    | cons k ks ih =>
        intro hks
        rcases lookup_isSome_of_mem k l.reverse (hks k (List.mem_cons_self _ _)) with ⟨v, hv⟩
        have hfa : ((l.reverse.lookup k).map (fun v => (k, v))) = some (k, v) := by
          rw [hv]; rfl
        simp only [List.filterMap_cons, hfa, List.map_cons]
        rw [ih (fun k2 hk2 => hks k2 (List.mem_cons_of_mem _ hk2))]
  apply hgen
  intro k hk
  rw [mem_pdUnique] at hk
  simpa [List.map_reverse] using hk

theorem dedupKeys_mem {β : Type} (l : List (String × β)) :
    ∀ kv ∈ dedupKeys l, kv ∈ l := by
  intro kv h
  unfold dedupKeys at h
  rcases List.mem_filterMap.mp h with ⟨k, hk, hmap⟩
  rcases hlv : l.reverse.lookup k with _ | v
  · rw [hlv] at hmap; cases hmap
  · rw [hlv] at hmap
    cases hmap
    exact List.mem_reverse.mp (lookup_mem k v l.reverse hlv)

theorem mapExcept_mem {α β : Type} (f : α → Except PyError β) :
    ∀ (l : List α) (bs : List β), mapExcept f l = .ok bs →
      ∀ b ∈ bs, ∃ a ∈ l, f a = .ok b := by
  intro l
  induction l with
  | nil =>
      intro bs h b hb
      simp only [mapExcept] at h
      cases h
      cases hb
  | cons a l ih =>
      intro bs h b hb
      simp only [mapExcept] at h
      rcases hfa : f a with e | b0
      · rw [hfa] at h; cases h
      · rw [hfa] at h
        rcases hml : mapExcept f l with e | bs0
        · rw [hml] at h; cases h
        · rw [hml] at h
          cases h
          rcases List.mem_cons.mp hb with rfl | hb2
          · exact ⟨a, List.mem_cons_self _ _, hfa⟩
          · rcases ih bs0 hml b hb2 with ⟨a2, ha2, hfa2⟩
            exact ⟨a2, List.mem_cons_of_mem _ ha2, hfa2⟩

theorem mapExcept_map_eq {α β γ : Type} (f : α → Except PyError β) (g : β → γ)
    (gh : α → γ) (hfg : ∀ a b, f a = .ok b → g b = gh a) :
    ∀ (l : List α) (bs : List β), mapExcept f l = .ok bs → bs.map g = l.map gh := by
  intro l
  induction l with
  | nil =>
      intro bs h
      simp only [mapExcept] at h
      cases h
      rfl
  | cons a l ih =>
      intro bs h
      simp only [mapExcept] at h
      rcases hfa : f a with e | b0
      · rw [hfa] at h; cases h
      · rw [hfa] at h
        rcases hml : mapExcept f l with e | bs0
        · rw [hml] at h; cases h
        · rw [hml] at h
          cases h
          simp only [List.map_cons, hfg a b0 hfa, ih bs0 hml]

theorem encodeRow_fst (r : FRow) (p : String × List (String × String))
    (h : encodeRow r = .ok p) : p.1 = toString r.answerID := by
  simp only [encodeRow] at h
  rcases h115 : (r.values.flatten.lookup 115) with _ | v115
  · rw [h115] at h; cases h
  · rw [h115] at h
    rcases h131 : (r.values.flatten.lookup 131) with _ | v131
    · rw [h131] at h; cases h
    · rw [h131] at h
      rcases hd : (r.values.flatten.filter (fun pr => !(pr.1 == 115) && !(pr.1 == 131))) with
        _ | ⟨a1, _ | ⟨a2, _ | ⟨a3, _ | ⟨a4, _ | ⟨a5, _ | ⟨a6, _ | ⟨a7, rest⟩⟩⟩⟩⟩⟩⟩ <;>
        rw [hd] at h <;> cases h
      rfl

theorem encodeRow_keys (r : FRow) (p : String × List (String × String))
    (h : encodeRow r = .ok p) : ∀ kv ∈ p.2, kv.1 ∈ bn_n := by
  simp only [encodeRow] at h
  rcases h115 : (r.values.flatten.lookup 115) with _ | v115
  · rw [h115] at h; cases h
  · rw [h115] at h
    rcases h131 : (r.values.flatten.lookup 131) with _ | v131
    · rw [h131] at h; cases h
    · rw [h131] at h
      rcases hd : (r.values.flatten.filter (fun pr => !(pr.1 == 115) && !(pr.1 == 131))) with
        _ | ⟨a1, _ | ⟨a2, _ | ⟨a3, _ | ⟨a4, _ | ⟨a5, _ | ⟨a6, _ | ⟨a7, rest⟩⟩⟩⟩⟩⟩⟩ <;>
        rw [hd] at h <;> cases h
      intro kv hkv
      exact (List.of_mem_zip (List.mem_filter.mp hkv).1).1

/-- Claim C1: the evidence encoder calls the Feature Assembler with the
fixed eight-entry search-term list and the requested year, and every
variable of every emitted evidence record is one of the seven node
names `bn_n`. -/
theorem evidence_uses_fixed_searchlist :
    ∀ (t : Tables) (year : Int),
    searchlist = ["earn per month", "watersource", "GeyserNumber", "GeyserBroken",
      "roof", "wall", "main switch", "floor area"] ∧
    evidence2000 t year =
      (featureFrame t searchlist year).bind (fun p => encodeFrame year p.1 p.2) ∧
    bn_n = ["monthly_income", "water_access", "roof_material", "wall_material",
      "cb_size", "floor_area", "geyser_nr"] ∧
    ∀ out, evidence2000 t year = .ok out →
      ∀ kv ∈ out.contents, ∀ e ∈ kv.2, e.1 ∈ bn_n := by
  intro t year
  refine ⟨rfl, ?_, rfl, ?_⟩
  · unfold evidence2000
    rcases featureFrame t searchlist year with e | p
    · rfl
    · obtain ⟨ff, fqs⟩ := p
      rfl
  · intro out hout kv hkv e he
    unfold evidence2000 at hout
    rcases hf : featureFrame t searchlist year with er | ⟨ff, fqs⟩
    · rw [hf] at hout; cases hout
    · rw [hf] at hout
      simp only [encodeFrame] at hout
      split at hout
      · split at hout
        · split at hout
          · rcases hme : mapExcept encodeRow ff with er2 | rows
            · rw [hme] at hout; cases hout
            · rw [hme] at hout
              cases hout
              rcases mapExcept_mem encodeRow ff rows hme kv (dedupKeys_mem rows kv hkv)
                with ⟨r, hr, her⟩
              exact encodeRow_keys r kv her e he
          · cases hout
        · cases hout
      · cases hout

/-- Witness for C1 at the concrete store `tsMain`, applying the
record-key property to respondent 1's record. -/
theorem evidence_uses_fixed_searchlist_witness : ("cb_size" : String) ∈ bn_n :=
  (evidence_uses_fixed_searchlist tsMain 2014).2.2.2 outMain rfl
    ("1", [("monthly_income", "R3200-R7799"), ("water_access", "2"), ("roof_material", "3"),
      ("wall_material", "4"), ("cb_size", "nan"), ("floor_area", "80-150"),
      ("geyser_nr", "1")])
    (by decide) ("cb_size", "nan") (by decide)

/-- Amended claim C5 (C5 as stated fails on the return value): a
successful evidence run produces exactly one artifact named
`bn_evidence_<year>.txt` in the output directory whose keys are the
respondent identifier strings of the assembled frame, and reports the
destination; but the function returns `None` (`return #evidence`), not
the in-memory mapping. -/
theorem evidence_output_artifact :
    ∀ (t : Tables) (year : Int) (out : RunOutput),
    evidence2000 t year = .ok out →
    out.filename = "bn_evidence_" ++ toString year ++ ".txt" ∧
    out.dir = output_dir ∧
    out.message = out.filename ++ " successfully saved to " ++ output_dir ∧
    out.ret = none ∧
    ∃ ff fqs, featureFrame t searchlist year = .ok (ff, fqs) ∧
      out.contents.map Prod.fst = pdUnique (ff.map (fun r => toString r.answerID)) := by
  intro t year out hout
  unfold evidence2000 at hout
  rcases hf : featureFrame t searchlist year with er | ⟨ff, fqs⟩
  · rw [hf] at hout; cases hout
  · rw [hf] at hout
    simp only [encodeFrame] at hout
    split at hout
    · split at hout
      · split at hout
        · rcases hme : mapExcept encodeRow ff with er2 | rows
          · rw [hme] at hout; cases hout
          · rw [hme] at hout
            cases hout
            refine ⟨rfl, rfl, rfl, rfl, ff, fqs, rfl, ?_⟩
            rw [dedupKeys_keys]
            congr 1
            exact mapExcept_map_eq encodeRow Prod.fst (fun r => toString r.answerID)
              encodeRow_fst ff rows hme
        · cases hout
      · cases hout
    · cases hout

/-- Witness for C5 (amended) at the concrete store `tsMain`. -/
theorem evidence_output_artifact_witness :
    outMain.filename = "bn_evidence_" ++ toString (2014 : Int) ++ ".txt" ∧
    outMain.dir = output_dir ∧
    outMain.message = outMain.filename ++ " successfully saved to " ++ output_dir ∧
    outMain.ret = none ∧
    ∃ ff fqs, featureFrame tsMain searchlist 2014 = .ok (ff, fqs) ∧
      outMain.contents.map Prod.fst = pdUnique (ff.map (fun r => toString r.answerID)) :=
  evidence_output_artifact tsMain 2014 outMain rfl

/-- Witness for C6 (amended) at `tsMain`: the term `"roof"` restricted
to questionnaire 3 and numeric data type. -/
theorem searchQuestions_substring_amended_witness :
    searchQuestions tsMain ["roof"] (some 3) (some .num) =
      .ok (specSearch tsMain ["roof"] (some 3) (some .num)) :=
  searchQuestions_substring_amended tsMain ["roof"] (some 3) (some .num)
    (by decide) (by decide) (fun qi h => by cases h; decide)

/-- Counterexample for C6: searched with the term `"a.b"`, the Question
Resolver returns the question `"axb"`, although `"axb"` does not
contain `"a.b"` as a substring — the terms are interpreted as regular
expressions, not plain substrings. -/
theorem searchQuestions_regex_counterexample :
    searchQuestions tsC6 ["a.b"] (some 3) (some .num) =
      .ok [⟨"axb", .num, 3, 201, none, none⟩] ∧
    specSearch tsC6 ["a.b"] (some 3) (some .num) = [] ∧
    substrB (strLower "a.b").toList (strLower "axb").toList = false :=
  ⟨rfl, rfl, rfl⟩

end DLR
